import Mathlib

/-!
Shallow embedding of the directory-navigator core of a GTK file manager
(`src/main.c`).  File and directory names are byte strings (`List Nat`,
one `Nat` per `char`), absolute paths are lists of name segments (the
root directory is `[]`), and the filesystem visible to the program is a
finite tree of directories and files.  The glib/GIO/POSIX calls the
program makes (`g_ascii_strcasecmp`, `g_build_filename`,
`g_path_get_dirname`, `g_file_test`, `g_file_get_contents`,
`g_file_set_contents`, `g_mkdir_with_parents`, `g_file_delete`,
`rename`) are modelled from their documented semantics; the event
handlers of `main.c` are translated over those models.
-/

namespace FileManager

/-- A byte string: the contents of a C `char` array, one `Nat` per byte. -/
abbrev Bytes := List Nat

/-- Bytes of an ASCII string literal, for concrete examples. -/
def strBytes (s : String) : Bytes := s.toList.map Char.toNat

/-- glib `g_ascii_tolower`: maps ASCII `A`..`Z` (65..90) to lowercase, leaves
every other byte unchanged. -/
def g_ascii_tolower (c : Nat) : Nat := if 65 ≤ c ∧ c ≤ 90 then c + 32 else c

/-- The byte sequence a C string pointer denotes: everything before the first
NUL byte.  Models reading a `char *` with `strlen`-style termination. -/
def c_str (b : Bytes) : Bytes := b.takeWhile (fun x => x ≠ 0)

/-- Comparison loop of glib `g_ascii_strcasecmp` on NUL-free byte strings:
compares bytes lowercased via `g_ascii_tolower`, returning the difference of
the first mismatching lowered pair, with a shorter string that is a prefix of
the longer comparing smaller (the C loop then compares a byte against the
terminating NUL). -/
def caseCmp : Bytes → Bytes → Int
  | [], [] => 0
  | [], y :: _ => -(g_ascii_tolower y : Int)
  | x :: _, [] => (g_ascii_tolower x : Int)
  | x :: xs, y :: ys =>
      if g_ascii_tolower x = g_ascii_tolower y then caseCmp xs ys
      else (g_ascii_tolower x : Int) - (g_ascii_tolower y : Int)

/-- glib `g_ascii_strcasecmp`: case-insensitive (ASCII) comparison of the two
C strings, which terminate at the first NUL byte. -/
def g_ascii_strcasecmp (a b : Bytes) : Int := caseCmp (c_str a) (c_str b)

/-- The comparison `g_ptr_array_sort(entries, (GCompareFunc)g_ascii_strcasecmp)`
at `src/main.c:110` actually applies.  `g_ptr_array_sort` hands the comparator
pointers to the array slots (`gchar **`), and the cast makes
`g_ascii_strcasecmp` read the memory at those slots — the byte representations
of the two stored `g_strdup` pointers — as NUL-terminated strings.  `addrRep`
is the allocator environment: for each entry name, the bytes of the pointer
value `g_strdup` returned for it inside this refresh. -/
def slotLe (addrRep : Bytes → Bytes) (a b : Bytes) : Prop :=
  g_ascii_strcasecmp (addrRep a) (addrRep b) ≤ 0

instance (addrRep : Bytes → Bytes) : DecidableRel (slotLe addrRep) :=
  fun a b => inferInstanceAs (Decidable (g_ascii_strcasecmp (addrRep a) (addrRep b) ≤ 0))

/-- The listing logic of `refresh_file_list` (`src/main.c:101-110`): take the
names returned by `g_dir_read_name` in read order, skip the `.` and `..`
pseudo-entries, and sort the rest with `g_ptr_array_sort` (modelled by a
deterministic comparison sort) — whose comparison, because the comparator
is `g_ascii_strcasecmp` cast directly to `GCompareFunc`, is `slotLe addrRep`:
it orders by the stored pointers' bytes, not by the names. -/
def refresh_file_list (addrRep : Bytes → Bytes) (rawNames : List Bytes) : List Bytes :=
  List.insertionSort (slotLe addrRep)
    (rawNames.filter (fun n => decide (n ≠ strBytes "." ∧ n ≠ strBytes "..")))

/-- One possible allocator outcome for the entry set {apple.txt, Banana,
cherry.txt}: pointer bytes that happen to compare in the names'
case-insensitive order. -/
def addrLow : Bytes → Bytes := fun n =>
  if n = strBytes "apple.txt" then [1] else if n = strBytes "Banana" then [2] else [3]

/-- Another possible allocator outcome for the same entry set: pointer bytes
that compare in the reverse order. -/
def addrHigh : Bytes → Bytes := fun n =>
  if n = strBytes "apple.txt" then [3] else if n = strBytes "Banana" then [2] else [1]

/-- A node of the filesystem tree the program operates on: a regular file with
its byte content, or a directory with its named children (an association list,
one entry per name). -/
inductive Node where
  | file (content : Bytes)
  | dir (children : List (Bytes × Node))

/-- An absolute path, as the list of name segments below the filesystem root.
The root directory itself is `[]`. -/
abbrev Path := List Bytes

/-- Look a name up in a directory's child list. -/
def findChild : List (Bytes × Node) → Bytes → Option Node
  | [], _ => none
  | (k, v) :: rest, name => if k = name then some v else findChild rest name

/-- Replace (or append) the child of the given name. -/
def setChild : List (Bytes × Node) → Bytes → Node → List (Bytes × Node)
  | [], name, n => [(name, n)]
  | (k, v) :: rest, name, n =>
      if k = name then (name, n) :: rest else (k, v) :: setChild rest name n

/-- Remove the child of the given name, if present. -/
def removeChild : List (Bytes × Node) → Bytes → List (Bytes × Node)
  | [], _ => []
  | (k, v) :: rest, name =>
      if k = name then rest else (k, v) :: removeChild rest name

/-- Resolve a path to the node it denotes, if any. -/
def lookup : Node → Path → Option Node
  | n, [] => some n
  | Node.file _, _ :: _ => none
  | Node.dir cs, seg :: rest =>
      match findChild cs seg with
      | some child => lookup child rest
      | none => none

/-- glib `g_file_test(path, G_FILE_TEST_EXISTS)`: does anything live at the
path? -/
def existsAt (n : Node) (p : Path) : Bool := (lookup n p).isSome

/-- glib `g_file_test(path, G_FILE_TEST_IS_DIR)`: does the path denote a
directory? -/
def isDirAt (n : Node) (p : Path) : Bool :=
  match lookup n p with
  | some (Node.dir _) => true
  | _ => false

/-- glib `g_file_get_contents`: whole-file read, returning every byte of the
file, or failure when the path is absent or a directory. -/
def g_file_get_contents (n : Node) (p : Path) : Option Bytes :=
  match lookup n p with
  | some (Node.file content) => some content
  | _ => none

/-- glib `g_file_set_contents`: create or fully replace the file at the path
with exactly the given bytes (truncate + replace).  Fails when the path is the
root, when its parent is missing or is a file, or when a directory occupies
the target. -/
def writeAt : Node → Path → Bytes → Option Node
  | _, [], _ => none
  | Node.file _, _ :: _, _ => none
  | Node.dir cs, seg :: rest, data =>
      match rest with
      | [] =>
          match findChild cs seg with
          | some (Node.dir _) => none
          | _ => some (Node.dir (setChild cs seg (Node.file data)))
      | _ :: _ =>
          match findChild cs seg with
          | some child =>
              match writeAt child rest data with
              | some child' => some (Node.dir (setChild cs seg child'))
              | none => none
          | none => none

/-- glib `g_mkdir_with_parents`: create the directory at the path together
with every missing ancestor segment; succeeds when the directory already
exists, fails when a file occupies any segment of the path. -/
def mkdirAt : Node → Path → Option Node
  | Node.file _, _ => none
  | Node.dir cs, [] => some (Node.dir cs)
  | Node.dir cs, seg :: rest =>
      match findChild cs seg with
      | some child =>
          match mkdirAt child rest with
          | some child' => some (Node.dir (setChild cs seg child'))
          | none => none
      | none =>
          match mkdirAt (Node.dir []) rest with
          | some child' => some (Node.dir (setChild cs seg child'))
          | none => none

/-- GIO `g_file_delete`: deletes the file, or the directory only when it is
empty; a non-empty directory fails with `G_IO_ERROR_NOT_EMPTY`.  (GIO offers
no recursive-delete flag: `g_file_delete` takes only a cancellable and an
error out-parameter.) -/
def deleteAt : Node → Path → Option Node
  | _, [] => none
  | Node.file _, _ :: _ => none
  | Node.dir cs, seg :: rest =>
      match rest with
      | [] =>
          match findChild cs seg with
          | some (Node.file _) => some (Node.dir (removeChild cs seg))
          | some (Node.dir []) => some (Node.dir (removeChild cs seg))
          | some (Node.dir (_ :: _)) => none
          | none => none
      | _ :: _ =>
          match findChild cs seg with
          | some child =>
              match deleteAt child rest with
              | some child' => some (Node.dir (setChild cs seg child'))
              | none => none
          | none => none

/-- Detach the node at the path, whatever it is (used by `rename`, which moves
a whole subtree). -/
def eraseAt : Node → Path → Option Node
  | _, [] => none
  | Node.file _, _ :: _ => none
  | Node.dir cs, seg :: rest =>
      match rest with
      | [] =>
          match findChild cs seg with
          | some _ => some (Node.dir (removeChild cs seg))
          | none => none
      | _ :: _ =>
          match findChild cs seg with
          | some child =>
              match eraseAt child rest with
              | some child' => some (Node.dir (setChild cs seg child'))
              | none => none
          | none => none

/-- Attach a subtree at the path; the parent must exist and be a directory. -/
def insertAt : Node → Path → Node → Option Node
  | _, [], _ => none
  | Node.file _, _ :: _, _ => none
  | Node.dir cs, seg :: rest, sub =>
      match rest with
      | [] => some (Node.dir (setChild cs seg sub))
      | _ :: _ =>
          match findChild cs seg with
          | some child =>
              match insertAt child rest sub with
              | some child' => some (Node.dir (setChild cs seg child'))
              | none => none
          | none => none

/-- POSIX `rename(2)` restricted to the case the program reaches (the caller
has already checked that nothing occupies the new path): atomically move the
node at `oldp`, descendants included, to `newp`. -/
def renameAt (n : Node) (oldp newp : Path) : Option Node :=
  match lookup n oldp with
  | none => none
  | some sub =>
      match eraseAt n oldp with
      | none => none
      | some n1 => insertAt n1 newp sub

/-- Cut a byte string into its non-empty `/`-separated pieces (byte 47 is the
Unix path separator); `acc` holds the bytes of the current piece, reversed. -/
def splitSegsAux : Bytes → Bytes → List Bytes
  | [], acc => if acc = [] then [] else [acc.reverse]
  | b :: rest, acc =>
      if b = 47 then
        (if acc = [] then splitSegsAux rest [] else acc.reverse :: splitSegsAux rest [])
      else splitSegsAux rest (b :: acc)

/-- The path segments a relative name contributes: its non-empty
`/`-separated pieces.  Empty pieces (doubled or trailing separators) vanish,
exactly as the kernel resolves the path string `g_build_filename` yields. -/
def splitSegs (name : Bytes) : List Bytes := splitSegsAux name []

/-- glib `g_build_filename(dir, name, NULL)` on a directory given as segments,
followed by the kernel's resolution of the resulting string to segments:
appends the name's own segments to the directory's. -/
def g_build_filename (cwd : Path) (name : Bytes) : Path := cwd ++ splitSegs name

/-- glib `g_path_get_dirname` on an absolute normalized path: drop the last
segment; the root (`[]`, the string `/`) is its own dirname. -/
def g_path_get_dirname (p : Path) : Path := p.dropLast

/-- Outcome of a button handler, mirroring which dialog `main.c` shows. -/
inductive OpResult where
  | ok
  | errEmptyName
  | errAlreadyExists
  | errCreate
  | errDelete
  | errRename
  | errSaveIsDir
  | errSave
deriving DecidableEq

/-- The mutable state the handlers touch: the filesystem tree and the
Navigator's `current_dir` (the `AppWidgets` fields the core logic uses). -/
structure NavState where
  root : Node
  cwd : Path

/-- Result of the `stat` probe `on_row_activated` makes after a successful
read: the file size and the ISO-8601 rendering of the modification time. -/
structure FileStat where
  st_size : Nat
  mtimeIso : Bytes
deriving DecidableEq

/-- What the status label reports after a row activation. -/
inductive StatusKind where
  | directoryView
  | withMetadata (size : Nat) (mtimeIso : Bytes)
  | metadataUnavailable
  | readFailed
deriving DecidableEq

/-- What the right-hand pane shows after a row activation: the editor text and
the status line. -/
structure DisplayState where
  editorText : Bytes
  status : StatusKind
deriving DecidableEq

/-- The names `refresh_file_list` displays for a directory path under the
allocator environment `addrRep`: its children's names, `.`/`..` skipped
(never produced by `g_dir_read_name`'s caller loop), ordered by the buggy
slot comparison; `none` when the path is not a readable directory. -/
def listing (addrRep : Bytes → Bytes) (n : Node) (p : Path) : Option (List Bytes) :=
  match lookup n p with
  | some (Node.dir cs) => some (refresh_file_list addrRep (cs.map Prod.fst))
  | _ => none

/-- Handler `on_new_clicked` (`src/main.c:205-245`): reject an empty name;
build the full path; classify the request as a directory when the name ends
in `/` or `\`; reject when anything already occupies the path; then create
via `g_mkdir_with_parents` or an empty-file `g_file_set_contents`. -/
def on_new_clicked (s : NavState) (name : Bytes) : OpResult × NavState :=
  if name = [] then (OpResult.errEmptyName, s)
  else
    let fullpath := g_build_filename s.cwd name
    let is_dir : Bool := name.getLast? == some 47 || name.getLast? == some 92
    if existsAt s.root fullpath then (OpResult.errAlreadyExists, s)
    else if is_dir then
      match mkdirAt s.root fullpath with
      | some root' => (OpResult.ok, { s with root := root' })
      | none => (OpResult.errCreate, s)
    else
      match writeAt s.root fullpath [] with
      | some root' => (OpResult.ok, { s with root := root' })
      | none => (OpResult.errCreate, s)

/-- Handler `on_save_clicked` (`src/main.c:247-288`) for a selected row named
`selName` and editor text `text`: refuse when the path is a directory, else
write the text with `g_file_set_contents(path, text, -1, ...)` — the `-1`
length makes the write store the C string `c_str text`. -/
def on_save_clicked (s : NavState) (selName : Bytes) (text : Bytes) :
    OpResult × NavState :=
  let fullpath := g_build_filename s.cwd selName
  if isDirAt s.root fullpath then (OpResult.errSaveIsDir, s)
  else
    match writeAt s.root fullpath (c_str text) with
    | some root' => (OpResult.ok, { s with root := root' })
    | none => (OpResult.errSave, s)

/-- Handler `on_delete_clicked` (`src/main.c:290-331`) after the user
confirmed: delete the selected entry with `g_file_delete`. -/
def on_delete_clicked (s : NavState) (selName : Bytes) : OpResult × NavState :=
  let fullpath := g_build_filename s.cwd selName
  match deleteAt s.root fullpath with
  | some root' => (OpResult.ok, { s with root := root' })
  | none => (OpResult.errDelete, s)

/-- Handler `on_rename_clicked` (`src/main.c:333-374`): reject an empty new
name; reject when something occupies the new path; else `rename(2)`. -/
def on_rename_clicked (s : NavState) (oldName newName : Bytes) :
    OpResult × NavState :=
  if newName = [] then (OpResult.errEmptyName, s)
  else
    let oldpath := g_build_filename s.cwd oldName
    let newpath := g_build_filename s.cwd newName
    if existsAt s.root newpath then (OpResult.errAlreadyExists, s)
    else
      match renameAt s.root oldpath newpath with
      | some root' => (OpResult.ok, { s with root := root' })
      | none => (OpResult.errRename, s)

/-- Handler `on_up_clicked` (`src/main.c:376-393`): compute the parent with
`g_path_get_dirname`; when it equals `current_dir` (filesystem root) leave the
state untouched, otherwise ascend to the parent. -/
def on_up_clicked (s : NavState) : NavState :=
  let parent := g_path_get_dirname s.cwd
  if parent = s.cwd then s else { s with cwd := parent }

/-- Handler `on_row_activated` (`src/main.c:142-203`): join `current_dir` with
the activated entry's name; descend when it is a directory; otherwise read the
file with `g_file_get_contents` and, only when the read succeeded, probe
metadata with `stat` — an independent call whose outcome is the `statResult`
argument.  A failed probe downgrades the status line, never the read. -/
def on_row_activated (s : NavState) (entryName : Bytes)
    (statResult : Option FileStat) : NavState × DisplayState :=
  let selected := g_build_filename s.cwd entryName
  if isDirAt s.root selected then
    ({ s with cwd := selected }, ⟨[], StatusKind.directoryView⟩)
  else
    match g_file_get_contents s.root selected with
    | some contents =>
        match statResult with
        | some st => (s, ⟨contents, StatusKind.withMetadata st.st_size st.mtimeIso⟩)
        | none => (s, ⟨contents, StatusKind.metadataUnavailable⟩)
    | none => (s, ⟨[], StatusKind.readFailed⟩)

/-- `q` is `p` itself or one of its ancestors: `p` extends `q`. -/
def ancestor (q p : Path) : Prop := ∃ r, p = q ++ r

theorem findChild_setChild (cs : List (Bytes × Node)) (k : Bytes) (v : Node) :
    findChild (setChild cs k v) k = some v := by
  induction cs with
  | nil => simp [setChild, findChild]
  | cons hd tl ih =>
      obtain ⟨k', v'⟩ := hd
      by_cases h : k' = k
      · simp [setChild, findChild, h]
      · simp [setChild, findChild, h, ih]

theorem c_str_eq_self {text : Bytes} (h : (0 : Nat) ∉ text) : c_str text = text := by
  unfold c_str
  rw [List.takeWhile_eq_self_iff]
  intro x hx
  simp only [ne_eq, decide_eq_true_eq]
  intro h0
  exact h (h0 ▸ hx)

theorem writeAt_lookup :
    ∀ (n : Node) (p : Path) (d : Bytes) (n' : Node),
      writeAt n p d = some n' → lookup n' p = some (Node.file d)
  | _, [], _, _ => by simp [writeAt]
  | Node.file _, _ :: _, _, _ => by simp [writeAt]
  | Node.dir cs, [seg], d, n' => by
      intro h
      simp only [writeAt] at h
      have hset : n' = Node.dir (setChild cs seg (Node.file d)) := by
        cases hfc : findChild cs seg with
        | none => rw [hfc] at h; simpa using h.symm
        | some child =>
            cases child with
            | file c => rw [hfc] at h; simpa using h.symm
            | dir cs' => rw [hfc] at h; simp at h
      subst hset
      simp [lookup, findChild_setChild]
  | Node.dir cs, seg :: seg2 :: rest, d, n' => by
      intro h
      simp only [writeAt] at h
      cases hfc : findChild cs seg with
      | none => simp [hfc] at h
      | some child =>
          simp only [hfc] at h
          cases hw : writeAt child (seg2 :: rest) d with
          | none => simp [hw] at h
          | some child' =>
              simp only [hw, Option.some.injEq] at h
              subst h
              have := writeAt_lookup child (seg2 :: rest) d child' hw
              simpa [lookup, findChild_setChild] using this

theorem isDirAt_dir_nil (cs : List (Bytes × Node)) :
    isDirAt (Node.dir cs) [] = true := by
  simp [isDirAt, lookup]

theorem isDirAt_setChild (cs : List (Bytes × Node)) (seg : Bytes) (c : Node)
    (q : Path) : isDirAt (Node.dir (setChild cs seg c)) (seg :: q) = isDirAt c q := by
  simp [isDirAt, lookup, findChild_setChild]

theorem mkdirAt_isDirAt :
    ∀ (n : Node) (p : Path) (n' : Node),
      mkdirAt n p = some n' → ∀ q, ancestor q p → isDirAt n' q = true
  | Node.file _, _, _ => by simp [mkdirAt]
  | Node.dir cs, [], n' => by
      intro h q hq
      obtain ⟨r, hr⟩ := hq
      have hq0 : q = [] := by
        cases q with
        | nil => rfl
        | cons a as => simp at hr
      subst hq0
      simp only [mkdirAt, Option.some.injEq] at h
      subst h
      exact isDirAt_dir_nil cs
  | Node.dir cs, seg :: rest, n' => by
      intro h q hq
      simp only [mkdirAt] at h
      have main :
          ∀ child child', mkdirAt child rest = some child' →
            n' = Node.dir (setChild cs seg child') →
            isDirAt n' q = true := by
        intro child child' hm hn
        subst hn
        obtain ⟨r, hr⟩ := hq
        cases q with
        | nil => exact isDirAt_dir_nil _
        | cons a as =>
            simp only [List.cons_append] at hr
            injection hr with ha1 ha2
            subst ha1
            rw [isDirAt_setChild]
            exact mkdirAt_isDirAt child rest child' hm as ⟨r, ha2⟩
      cases hfc : findChild cs seg with
      | some child =>
          simp only [hfc] at h
          cases hm : mkdirAt child rest with
          | none => simp [hm] at h
          | some child' =>
              simp only [hm, Option.some.injEq] at h
              exact main child child' hm h.symm
      | none =>
          simp only [hfc] at h
          cases hm : mkdirAt (Node.dir []) rest with
          | none => simp [hm] at h
          | some child' =>
              simp only [hm, Option.some.injEq] at h
              exact main (Node.dir []) child' hm h.symm

theorem splitSegsAux_no_sep :
    ∀ (c acc : Bytes), (47 : Nat) ∉ c →
      splitSegsAux c acc =
        (if acc.reverse ++ c = [] then [] else [acc.reverse ++ c])
  | [], acc, _ => by
      simp only [splitSegsAux, List.append_nil]
      by_cases h : acc = []
      · simp [h]
      · have : acc.reverse ≠ [] := by simpa using h
        simp [h, this]
  | b :: rest, acc, hns => by
      have hb : b ≠ 47 := fun hb => hns (hb ▸ List.mem_cons_self b rest)
      have hrest : (47 : Nat) ∉ rest := fun hr => hns (List.mem_cons_of_mem b hr)
      simp only [splitSegsAux, if_neg hb]
      rw [splitSegsAux_no_sep rest (b :: acc) hrest]
      simp

theorem splitSegs_single {c : Bytes} (hne : c ≠ []) (hns : (47 : Nat) ∉ c) :
    splitSegs c = [c] := by
  unfold splitSegs
  rw [splitSegsAux_no_sep c [] hns]
  simp [hne]

/-- The filesystem node a successful save leaves at the written path: exactly
the C string of the editor text, the file's previous content gone. -/
theorem save_ok_writeAt {s : NavState} {selName text : Bytes} {r' : NavState}
    (hok : on_save_clicked s selName text = (OpResult.ok, r')) :
    lookup r'.root (g_build_filename s.cwd selName) = some (Node.file (c_str text)) := by
  unfold on_save_clicked at hok
  cases hdir : isDirAt s.root (g_build_filename s.cwd selName) with
  | true => simp [hdir] at hok
  | false =>
      simp only [hdir, Bool.false_eq_true, if_false] at hok
      cases hw : writeAt s.root (g_build_filename s.cwd selName) (c_str text) with
      | none => simp [hw] at hok
      | some root' =>
          simp only [hw] at hok
          have hr : r' = { s with root := root' } := by
            have := congrArg Prod.snd hok
            simpa using this.symm
          subst hr
          exact writeAt_lookup _ _ _ _ hw

/-- C1 (code bug witness): under every allocator environment the listing
excludes `.`/`..` and is a permutation of the other entries read, but its
order is the order of the stored pointers' bytes, not the names': the same
entry set {cherry.txt, apple.txt, Banana} lists as apple.txt, Banana,
cherry.txt under one allocator outcome and as cherry.txt, Banana, apple.txt
under another — the claimed case-insensitive, deterministic name order is not
what `main.c:110`'s mis-cast comparator produces. -/
theorem listing_order_depends_on_addresses :
    (∀ (addrRep : Bytes → Bytes) (names : List Bytes),
      (strBytes "." ∉ refresh_file_list addrRep names)
      ∧ (strBytes ".." ∉ refresh_file_list addrRep names)
      ∧ (refresh_file_list addrRep names).Perm
          (names.filter (fun n => decide (n ≠ strBytes "." ∧ n ≠ strBytes ".."))))
    ∧ refresh_file_list addrLow [strBytes "cherry.txt", strBytes "apple.txt", strBytes "Banana"]
        = [strBytes "apple.txt", strBytes "Banana", strBytes "cherry.txt"]
    ∧ refresh_file_list addrHigh [strBytes "cherry.txt", strBytes "apple.txt", strBytes "Banana"]
        = [strBytes "cherry.txt", strBytes "Banana", strBytes "apple.txt"]
    ∧ ([strBytes "cherry.txt", strBytes "Banana", strBytes "apple.txt"]
        ≠ [strBytes "apple.txt", strBytes "Banana", strBytes "cherry.txt"]) := by
  refine ⟨fun addrRep names => ⟨?_, ?_, ?_⟩, ?_, ?_, ?_⟩
  · intro hmem
    rw [refresh_file_list, List.mem_insertionSort, List.mem_filter] at hmem
    simp at hmem
  · intro hmem
    rw [refresh_file_list, List.mem_insertionSort, List.mem_filter] at hmem
    simp at hmem
  · exact List.perm_insertionSort (slotLe addrRep) _
  · decide
  · decide
  · decide

/-- C2 (code bug witness): with the current directory containing a non-empty
directory `d` (a file `f` inside), the delete handler fails — GIO's
`g_file_delete` cannot remove a non-empty directory (it has no recursion flag;
the `G_FILE_COPY_RECURSIVE` constant `main.c:319` passes does not belong to
its signature) — and the filesystem is unchanged, so a subsequent listing of
the parent, under every allocator environment, still shows `d`. -/
theorem delete_nonempty_dir_fails :
    on_delete_clicked
        ⟨Node.dir [(strBytes "d", Node.dir [(strBytes "f", Node.file [])])], []⟩
        (strBytes "d")
      = (OpResult.errDelete,
         ⟨Node.dir [(strBytes "d", Node.dir [(strBytes "f", Node.file [])])], []⟩)
    ∧ ∀ addrRep : Bytes → Bytes,
        listing addrRep
            (Node.dir [(strBytes "d", Node.dir [(strBytes "f", Node.file [])])]) []
          = some [strBytes "d"] :=
  ⟨rfl, fun _ => rfl⟩

/-- C3 (counterexample): the save handler passes length `-1`, so a byte
sequence with an interior NUL — here `[104, 0, 105]` written over the file
`f` — is stored truncated to `[104]`, and reading back does not return the
original content. -/
theorem write_read_nul_byte_counterexample :
    (on_save_clicked ⟨Node.dir [(strBytes "f", Node.file [])], []⟩ (strBytes "f")
        [104, 0, 105]).1 = OpResult.ok
    ∧ g_file_get_contents
        (on_save_clicked ⟨Node.dir [(strBytes "f", Node.file [])], []⟩ (strBytes "f")
            [104, 0, 105]).2.root
        (g_build_filename [] (strBytes "f"))
      = some [104]
    ∧ some ([104] : Bytes) ≠ some ([104, 0, 105] : Bytes) :=
  ⟨rfl, rfl, by decide⟩

/-- C3 (amended): for every content without a NUL byte (empty or not), a
successful save followed by a whole-file read returns exactly that content. -/
theorem write_read_roundtrip (s : NavState) (selName text : Bytes) (r' : NavState)
    (hnonul : (0 : Nat) ∉ text)
    (hok : on_save_clicked s selName text = (OpResult.ok, r')) :
    g_file_get_contents r'.root (g_build_filename s.cwd selName) = some text := by
  have hl := save_ok_writeAt hok
  simp [g_file_get_contents, hl, c_str_eq_self hnonul]

theorem write_read_roundtrip_witness :
    ((0 : Nat) ∉ strBytes "hi")
    ∧ g_file_get_contents
        (on_save_clicked ⟨Node.dir [(strBytes "f", Node.file [55])], []⟩ (strBytes "f")
            (strBytes "hi")).2.root
        (g_build_filename [] (strBytes "f")) = some (strBytes "hi") :=
  ⟨by decide,
   write_read_roundtrip ⟨Node.dir [(strBytes "f", Node.file [55])], []⟩ (strBytes "f")
     (strBytes "hi") _ (by decide) rfl⟩

/-- C4: when anything already occupies the target path, the create handler
stops at its pre-flight existence check with the already-exists error and the
state is untouched; the rename handler does the same when the new path is
occupied. -/
theorem create_rename_already_exists (s : NavState) (name selName newName : Bytes)
    (hname : name ≠ []) (hnew : newName ≠ [])
    (hex1 : existsAt s.root (g_build_filename s.cwd name) = true)
    (hex2 : existsAt s.root (g_build_filename s.cwd newName) = true) :
    on_new_clicked s name = (OpResult.errAlreadyExists, s)
    ∧ on_rename_clicked s selName newName = (OpResult.errAlreadyExists, s) := by
  constructor
  · simp [on_new_clicked, hname, hex1]
  · simp [on_rename_clicked, hnew, hex2]

theorem create_rename_already_exists_witness :
    on_new_clicked ⟨Node.dir [(strBytes "f", Node.file [])], []⟩ (strBytes "f")
      = (OpResult.errAlreadyExists, ⟨Node.dir [(strBytes "f", Node.file [])], []⟩)
    ∧ on_rename_clicked ⟨Node.dir [(strBytes "f", Node.file [])], []⟩ (strBytes "g")
        (strBytes "f")
      = (OpResult.errAlreadyExists, ⟨Node.dir [(strBytes "f", Node.file [])], []⟩) :=
  create_rename_already_exists ⟨Node.dir [(strBytes "f", Node.file [])], []⟩
    (strBytes "f") (strBytes "g") (strBytes "f")
    (by decide) (by decide) (by rfl) (by rfl)

/-- C5: when the computed parent equals the current path (the filesystem
root), the up handler leaves the state unchanged, and iterating it any number
of times gives the same state as a single call. -/
theorem ascend_root_noop (s : NavState) (h : g_path_get_dirname s.cwd = s.cwd) :
    on_up_clicked s = s ∧ ∀ k : Nat, on_up_clicked^[k + 1] s = on_up_clicked s := by
  have h1 : on_up_clicked s = s := by simp [on_up_clicked, h]
  refine ⟨h1, fun k => ?_⟩
  calc on_up_clicked^[k + 1] s = s := Function.iterate_fixed h1 (k + 1)
    _ = on_up_clicked s := h1.symm

theorem ascend_root_noop_witness :
    on_up_clicked ⟨Node.dir [], []⟩ = ⟨Node.dir [], []⟩
    ∧ on_up_clicked^[3 + 1] ⟨Node.dir [], []⟩ = on_up_clicked ⟨Node.dir [], []⟩ :=
  ⟨(ascend_root_noop ⟨Node.dir [], []⟩ rfl).1,
   (ascend_root_noop ⟨Node.dir [], []⟩ rfl).2 3⟩

/-- C6: activating a child directory named `c` (a real entry name: non-empty,
no separator) joins by pure segment concatenation — the new path is exactly
`P ++ [c]`, no `.`/`..` normalization — and the up handler then returns
exactly `P`. -/
theorem descend_then_ascend (s : NavState) (c : Bytes) (st : Option FileStat)
    (hne : c ≠ []) (hns : (47 : Nat) ∉ c)
    (hdir : isDirAt s.root (g_build_filename s.cwd c) = true) :
    g_build_filename s.cwd c = s.cwd ++ [c]
    ∧ (on_row_activated s c st).1.cwd = s.cwd ++ [c]
    ∧ (on_up_clicked (on_row_activated s c st).1).cwd = s.cwd := by
  have hb : g_build_filename s.cwd c = s.cwd ++ [c] := by
    simp [g_build_filename, splitSegs_single hne hns]
  have hra : (on_row_activated s c st).1 = { s with cwd := s.cwd ++ [c] } := by
    rw [hb] at hdir
    simp [on_row_activated, hb, hdir]
  have hdrop : (s.cwd ++ [c]).dropLast = s.cwd := List.dropLast_concat
  have hneq : ¬ ((s.cwd ++ [c]).dropLast = s.cwd ++ [c]) := by
    rw [hdrop]
    intro hh
    have := congrArg List.length hh
    simp at this
  refine ⟨hb, by rw [hra], ?_⟩
  rw [hra]
  simp [on_up_clicked, g_path_get_dirname, hneq, hdrop]

theorem descend_then_ascend_witness :
    g_build_filename [] (strBytes "sub") = ([] : Path) ++ [strBytes "sub"]
    ∧ (on_row_activated ⟨Node.dir [(strBytes "sub", Node.dir [])], []⟩
        (strBytes "sub") none).1.cwd = ([] : Path) ++ [strBytes "sub"]
    ∧ (on_up_clicked (on_row_activated ⟨Node.dir [(strBytes "sub", Node.dir [])], []⟩
        (strBytes "sub") none).1).cwd = ([] : Path) :=
  descend_then_ascend ⟨Node.dir [(strBytes "sub", Node.dir [])], []⟩
    (strBytes "sub") none (by decide) (by decide) (by rfl)

/-- C7: saving refuses a directory target before any write, leaving the state
untouched, and a successful save leaves at the path a file holding exactly the
written C string — a full truncate-and-replace, independent of the file's
previous content. -/
theorem save_dir_guard_and_overwrite (s : NavState) (selName text : Bytes) (r' : NavState) :
    (isDirAt s.root (g_build_filename s.cwd selName) = true →
      on_save_clicked s selName text = (OpResult.errSaveIsDir, s))
    ∧ (on_save_clicked s selName text = (OpResult.ok, r') →
      lookup r'.root (g_build_filename s.cwd selName) = some (Node.file (c_str text))) := by
  constructor
  · intro hdir
    simp [on_save_clicked, hdir]
  · intro hok
    exact save_ok_writeAt hok

theorem save_dir_guard_and_overwrite_witness :
    on_save_clicked ⟨Node.dir [(strBytes "d", Node.dir [])], []⟩ (strBytes "d")
        (strBytes "x")
      = (OpResult.errSaveIsDir, ⟨Node.dir [(strBytes "d", Node.dir [])], []⟩)
    ∧ lookup (on_save_clicked ⟨Node.dir [(strBytes "f", Node.file [1, 2, 3])], []⟩
          (strBytes "f") (strBytes "new")).2.root
        (g_build_filename [] (strBytes "f"))
      = some (Node.file (c_str (strBytes "new"))) :=
  ⟨(save_dir_guard_and_overwrite ⟨Node.dir [(strBytes "d", Node.dir [])], []⟩
      (strBytes "d") (strBytes "x")
      ⟨Node.dir [(strBytes "d", Node.dir [])], []⟩).1 (by rfl),
   (save_dir_guard_and_overwrite ⟨Node.dir [(strBytes "f", Node.file [1, 2, 3])], []⟩
      (strBytes "f") (strBytes "new") _).2 rfl⟩

/-- C8: when the whole-file read succeeds (the path holds a file with the
given content) but the independent `stat` probe fails, the row-activation
handler still shows the content, with the status line downgraded to
metadata-unavailable — the read does not fail as a whole. -/
theorem read_ok_stat_failed_metadata_unavailable (s : NavState)
    (entryName content : Bytes)
    (hfile : lookup s.root (g_build_filename s.cwd entryName) = some (Node.file content)) :
    on_row_activated s entryName none
      = (s, ⟨content, StatusKind.metadataUnavailable⟩) := by
  have hdir : isDirAt s.root (g_build_filename s.cwd entryName) = false := by
    simp [isDirAt, hfile]
  have hget : g_file_get_contents s.root (g_build_filename s.cwd entryName)
      = some content := by
    simp [g_file_get_contents, hfile]
  simp [on_row_activated, hdir, hget]

theorem read_ok_stat_failed_metadata_unavailable_witness :
    on_row_activated ⟨Node.dir [(strBytes "f", Node.file [7, 8])], []⟩ (strBytes "f") none
      = (⟨Node.dir [(strBytes "f", Node.file [7, 8])], []⟩,
         ⟨[7, 8], StatusKind.metadataUnavailable⟩) :=
  read_ok_stat_failed_metadata_unavailable
    ⟨Node.dir [(strBytes "f", Node.file [7, 8])], []⟩ (strBytes "f") [7, 8] (by rfl)

/-- C9: a create request the code classifies as a directory — the name ends
in `/` or `\` (`src/main.c:216`) — that succeeds leaves a directory at the
full path and at every ancestor segment (recursive creation);
`CreateEntry("notes/")` on an empty directory creates an empty directory whose
stored name is `notes`, no trailing separator; and a successful create with
any other name leaves an empty file. -/
theorem create_directory_recursive (s : NavState) (name : Bytes) (r' : NavState)
    (hsep : (name.getLast? == some 47 || name.getLast? == some 92) = true)
    (hok : on_new_clicked s name = (OpResult.ok, r')) :
    (∀ q, ancestor q (g_build_filename s.cwd name) → isDirAt r'.root q = true)
    ∧ on_new_clicked ⟨Node.dir [], []⟩ (strBytes "notes/")
        = (OpResult.ok, ⟨Node.dir [(strBytes "notes", Node.dir [])], []⟩)
    ∧ (∀ addrRep : Bytes → Bytes,
        listing addrRep (Node.dir [(strBytes "notes", Node.dir [])]) []
          = some [strBytes "notes"])
    ∧ (∀ (s₂ : NavState) (name₂ : Bytes) (r₂ : NavState),
        name₂ ≠ [] →
        (name₂.getLast? == some 47 || name₂.getLast? == some 92) = false →
        on_new_clicked s₂ name₂ = (OpResult.ok, r₂) →
        lookup r₂.root (g_build_filename s₂.cwd name₂) = some (Node.file [])) := by
  have hname : name ≠ [] := by
    intro hh
    rw [hh] at hsep
    simp at hsep
  have hisdir : (name.getLast? == some 47 || name.getLast? == some 92) = true := hsep
  refine ⟨?_, by rfl, fun _ => by rfl, ?_⟩
  · unfold on_new_clicked at hok
    simp only [if_neg hname, hisdir] at hok
    cases hex : existsAt s.root (g_build_filename s.cwd name) with
    | true => simp [hex] at hok
    | false =>
        simp only [hex, Bool.false_eq_true, if_false, if_true] at hok
        cases hm : mkdirAt s.root (g_build_filename s.cwd name) with
        | none => simp [hm] at hok
        | some root' =>
            simp only [hm] at hok
            have hr : r' = { s with root := root' } := by
              have := congrArg Prod.snd hok
              simpa using this.symm
            subst hr
            exact mkdirAt_isDirAt _ _ _ hm
  · intro s₂ name₂ r₂ hname₂ hnotdir hok₂
    unfold on_new_clicked at hok₂
    simp only [if_neg hname₂, hnotdir] at hok₂
    cases hex : existsAt s₂.root (g_build_filename s₂.cwd name₂) with
    | true => simp [hex] at hok₂
    | false =>
        simp only [hex, Bool.false_eq_true, if_false] at hok₂
        cases hw : writeAt s₂.root (g_build_filename s₂.cwd name₂) [] with
        | none => simp [hw] at hok₂
        | some root' =>
            simp only [hw] at hok₂
            have hr : r₂ = { s₂ with root := root' } := by
              have := congrArg Prod.snd hok₂
              simpa using this.symm
            subst hr
            exact writeAt_lookup _ _ _ _ hw

theorem create_directory_recursive_witness :
    isDirAt (on_new_clicked ⟨Node.dir [], []⟩ (strBytes "a/b/")).2.root
        (g_build_filename [] (strBytes "a/b/")) = true
    ∧ isDirAt (on_new_clicked ⟨Node.dir [], []⟩ [100, 92]).2.root
        (g_build_filename [] [100, 92]) = true
    ∧ lookup (on_new_clicked ⟨Node.dir [], []⟩ (strBytes "afile")).2.root
        (g_build_filename [] (strBytes "afile")) = some (Node.file []) := by
  refine ⟨?_, ?_, ?_⟩
  · exact (create_directory_recursive ⟨Node.dir [], []⟩ (strBytes "a/b/") _
      (by decide) rfl).1 _ ⟨[], by simp⟩
  · exact (create_directory_recursive ⟨Node.dir [], []⟩ [100, 92] _
      (by decide) rfl).1 _ ⟨[], by simp⟩
  · exact (create_directory_recursive ⟨Node.dir [], []⟩ (strBytes "a/b/") _
      (by decide) rfl).2.2.2 ⟨Node.dir [], []⟩ (strBytes "afile") _
      (by decide) (by decide) rfl

/-- C10: an empty requested name makes the create and rename handlers stop
with the empty-name error, the filesystem tree and the current directory both
unchanged. -/
theorem empty_name_rejected (s : NavState) (selName : Bytes) :
    on_new_clicked s [] = (OpResult.errEmptyName, s)
    ∧ on_rename_clicked s selName [] = (OpResult.errEmptyName, s) :=
  ⟨rfl, rfl⟩

end FileManager
